import Mathlib

/-!
Verification of `posse.py`, the Hugo POSSE syndication script.

The development shallowly embeds the script's pure logic:
* `truncate_text` — the character-budget truncation routine (which, in the
  source, references the unbound name `forced_suffix` on every path);
* the scanner's eligibility filter over parsed front matter;
* the orchestrator's mark/warn decision over per-target outcomes;
* `mark_syndicated`'s line rewriting and its failure handling;
* `get_post_url`'s path-segment analysis (normpath, basename, splitext,
  the `content`-relative directory extraction and slug rules).

Python strings are modelled as Lean `String`s, path manipulation is done on
`List Char`, machine behaviour such as `list.index` raising `ValueError`,
`dirs[-1]` raising `IndexError` on an empty list, and the unbound-name
`NameError` are modelled with `Option`/`Except`.
-/

namespace Posse

/-- Python runtime errors that the embedded fragments can raise. -/
inductive PyErr where
  | nameError
  | indexError
deriving DecidableEq

/-! ## Truncator: `truncate_text` (posse.py lines 93–115)

```python
def truncate_text(title, content, limit, suffix=""):
    suffix_padding = 2 if suffix else 0
    reserved_chars = len(title) + 2 + len(suffix) + suffix_padding
    available_chars = limit - reserved_chars
    if available_chars <= 0:
        return f"{title[:limit-len(forced_suffix)-5]}... {forced_suffix}"
    ...
    if forced_suffix:
        parts.append(forced_suffix)
    return "\n\n".join(parts)
```

The name `forced_suffix` is bound nowhere: it is not the parameter (that is
`suffix`), not a module-level global of posse.py, and not a builtin.  The
saturation branch evaluates it inside the f-string; the normal branch
evaluates it at `if forced_suffix:`.  Either way CPython raises `NameError`
when the function runs, so the embedding returns `Except.error .nameError`
on both paths, after faithfully computing the arithmetic that precedes the
failing reference. -/
def truncate_text (title content : String) (limit : Int) (suffix : String) :
    Except PyErr String :=
  let suffix_padding : Int := if suffix = "" then 0 else 2
  let reserved_chars : Int :=
    (title.length : Int) + 2 + (suffix.length : Int) + suffix_padding
  let available_chars : Int := limit - reserved_chars
  if available_chars ≤ 0 then
    -- f-string evaluates the unbound name `forced_suffix`
    Except.error PyErr.nameError
  else
    -- `final_content` would be computed from `content` here, but the
    -- subsequent `if forced_suffix:` evaluates an unbound name
    Except.error PyErr.nameError

/-- C2: every execution path of `truncate_text` — the saturation branch
(`available_chars <= 0`) and the normal branch alike — evaluates the name
`forced_suffix`, which is not defined in any enclosing scope, so the
function always raises `NameError` instead of producing text. -/
theorem truncate_text_always_raises (title content : String) (limit : Int)
    (suffix : String) :
    truncate_text title content limit suffix = Except.error PyErr.nameError := by
  simp only [truncate_text, ite_self]

/-- C1: the claimed contract — that `truncate_text` returns a string within
`limit` containing the non-empty `suffix` verbatim — is broken by the code:
at the concrete input below (title `"Hi"`, body `"Some text"`, limit 280,
suffix `"#indieweb"`), the call raises `NameError` (unbound name
`forced_suffix`) instead of returning any string at all. -/
theorem truncate_text_contract_failing_input :
    truncate_text "Hi" "Some text" 280 "#indieweb" =
      Except.error PyErr.nameError := by
  rfl

/-- C7: the claimed saturation behaviour — degrade to a truncated title plus
the intact suffix when the available budget is `<= 0` — is broken by the
code: at the concrete input below the budget is negative
(`10 - (20 + 2 + 2 + 2) = -16 <= 0`), and the saturation branch raises
`NameError` (the f-string evaluates the unbound name `forced_suffix`)
instead of returning the degraded text. -/
theorem truncate_text_saturation_failing_input :
    truncate_text "A title of length 20" "body" 10 "#x" =
      Except.error PyErr.nameError := by
  rfl

/-- C10: the claimed idempotence on already-fitting input presupposes that
`truncate_text` returns the fitting string; at the concrete input below the
body `"ok"` fits the available budget (`100 - (2 + 2 + 0 + 0) = 96 > 0`),
yet the call raises `NameError` (unbound name `forced_suffix`), so no input
ever satisfies the premise of the claim. -/
theorem truncate_text_fitting_failing_input :
    truncate_text "Hi" "ok" 100 "" = Except.error PyErr.nameError := by
  rfl

/-! ## Front matter and the scanner (posse.py lines 230–249)

`parse_frontmatter` delegates to `tomllib`/`yaml` (external collaborators);
its result is modelled as `Option Frontmatter` — `none` for a parse failure,
`some` for a parsed key/value map, with each key of interest a typed field.
An absent key is `none` / the Python-default value. -/
structure Frontmatter where
  title : Option String
  slug : Option String
  microblog_content : Option String
  syndicate_to : Option (List String)
  syndicated : Bool
deriving DecidableEq

/-- Python truthiness of `fm.get(key)` for a string-valued key: `False` for
a missing key and for the empty string. -/
def truthyStr : Option String → Bool
  | none => false
  | some s => !(s == "")

/-- The scanner's eligibility test, from main()'s SCANNING loop:

```python
if fm and "syndicate_to" in fm:
    if fm.get("syndicated", False):
        continue
    if not fm.get("microblog_content"):
        ...
        continue
    manifest.append({"frontmatter": fm, "filepath": filepath})
```

A parsed dict containing the key `"syndicate_to"` is non-empty, hence
truthy, so `fm and "syndicate_to" in fm` is key presence; the code never
inspects the length of the target list. -/
def shouldAppend : Option Frontmatter → Bool
  | none => false
  | some fm =>
      fm.syndicate_to.isSome && !fm.syndicated && truthyStr fm.microblog_content

/-- One file as the scanner sees it: its base name, whether
`open`/`read` succeeds, and the result of `parse_frontmatter` on its
content. -/
structure ScannedFile where
  fname : String
  readOk : Bool
  parsed : Option Frontmatter
deriving DecidableEq

/-- Python `s.endswith(".md")`, on the character list of `s`. -/
def endsWithMd (s : String) : Bool :=
  s.data.drop (s.data.length - 3) == ['.', 'm', 'd']

/-- The SCANNING loop of main(): every visited file whose name ends in
`.md`, whose read succeeds, and which passes the eligibility test is
appended to the manifest, in traversal order. -/
def scanManifest (files : List ScannedFile) : List ScannedFile :=
  files.filter (fun f => endsWithMd f.fname && f.readOk && shouldAppend f.parsed)

/-- Eligibility as the spec words it (§3 invariant): header parses,
non-empty target set, non-empty excerpt, not already syndicated.  Written
from the spec's words, to be compared with `shouldAppend`, which is written
from the code. -/
def eligibleSpec : Option Frontmatter → Bool
  | none => false
  | some fm =>
      (match fm.syndicate_to with
        | some ts => !ts.isEmpty
        | none => false) && !fm.syndicated && truthyStr fm.microblog_content

/-- A header that declares `syndicate_to = []`: an empty — but present —
target list, a non-empty excerpt, not yet syndicated. -/
def fmEmptyTargets : Frontmatter :=
  ⟨some "T", none, some "hello world", some [], false⟩

/-- The file carrying `fmEmptyTargets`. -/
def fileEmptyTargets : ScannedFile :=
  ⟨"post.md", true, some fmEmptyTargets⟩

/-- C4 counterexample: the claim says a file is appended to the worklist
only if its target set is non-empty, but the code checks mere presence of
the `syndicate_to` key: a file declaring `syndicate_to = []` with a
non-empty excerpt and `syndicated` unset IS appended, while the spec's
eligibility predicate rejects it. -/
theorem scanManifest_empty_targets_appended :
    scanManifest [fileEmptyTargets] = [fileEmptyTargets] ∧
      eligibleSpec fileEmptyTargets.parsed = false := by
  decide

/-- C4 (amended): for every `.md` file that reads successfully, membership
in the scanner's manifest holds iff the file was visited and its header
parses to a map that declares the `syndicate_to` key (possibly with an
empty list), has a non-empty `microblog_content`, and has `syndicated`
false. -/
theorem scanManifest_membership (files : List ScannedFile) (f : ScannedFile)
    (hmd : endsWithMd f.fname = true) (hread : f.readOk = true) :
    f ∈ scanManifest files ↔
      f ∈ files ∧ ∃ fm, f.parsed = some fm ∧ fm.syndicate_to.isSome = true ∧
        fm.syndicated = false ∧ truthyStr fm.microblog_content = true := by
  unfold scanManifest
  rw [List.mem_filter, hmd]
  constructor
  · rintro ⟨hmem, hp⟩
    refine ⟨hmem, ?_⟩
    simp only [hread, Bool.true_and, Bool.and_eq_true] at hp
    cases hfm : f.parsed with
    | none => rw [hfm] at hp; simp [shouldAppend] at hp
    | some fm =>
        rw [hfm] at hp
        simp only [shouldAppend, Bool.and_eq_true, Bool.not_eq_true'] at hp
        exact ⟨fm, rfl, hp.1.1, hp.1.2, hp.2⟩
  · rintro ⟨hmem, fm, hfm, h1, h2, h3⟩
    refine ⟨hmem, ?_⟩
    simp only [hread, Bool.true_and, hfm, shouldAppend, Bool.and_eq_true,
      Bool.not_eq_true', h1, h2, h3, and_self]

/-- An eligible file used to exercise `scanManifest_membership`. -/
def fileGood : ScannedFile :=
  ⟨"post.md", true, some ⟨some "T", none, some "hello", some ["bluesky"], false⟩⟩

/-- Witness for C4's amended theorem at a concrete eligible file. -/
theorem scanManifest_membership_witness :
    fileGood ∈ scanManifest [fileGood] :=
  (scanManifest_membership [fileGood] fileGood (by decide) rfl).mpr
    ⟨List.mem_singleton.mpr rfl,
      ⟨some "T", none, some "hello", some ["bluesky"], false⟩,
      rfl, rfl, rfl, by decide⟩

/-! ## Orchestrator: mark/warn decision (posse.py lines 267–294) -/

/-- The per-target outcome list built by main()'s EXECUTION step for one
manifest entry: one boolean per platform named in `syndicate_to` (among
`"bluesky"`/`"mastodon"`); in dry-run the outcome is simulated `True`;
otherwise it is the publisher's result when a client is configured and
`False` when the client is absent. -/
def computeResults (targets : List String) (dryRun : Bool)
    (bskyClient mastoClient : Bool) (bskyOk mastoOk : Bool) : List Bool :=
  (if targets.contains "bluesky" then
    [if dryRun then true else if bskyClient then bskyOk else false]
  else []) ++
  (if targets.contains "mastodon" then
    [if dryRun then true else if mastoClient then mastoOk else false]
  else [])

/-- What the MARK SYNDICATED step does with one entry. `marked` covers both
the real `mark_syndicated` call and the dry-run would-mark line. -/
inductive MarkAction where
  | marked
  | warned
  | noAction
deriving DecidableEq

/-- main()'s MARK SYNDICATED step:

```python
if len(results) > 0 and all(results):
    ... mark (or print the would-mark line) ...
elif not args.dry_run and len(results) > 0:
    logging.warning(...)
``` -/
def markDecision (dryRun : Bool) (results : List Bool) : MarkAction :=
  if !results.isEmpty && results.all id then MarkAction.marked
  else if !dryRun && !results.isEmpty then MarkAction.warned
  else MarkAction.noAction

/-- The mark branch is taken exactly when the outcome list is non-empty and
all outcomes are true. -/
theorem markDecision_eq_marked_iff (dryRun : Bool) (results : List Bool) :
    markDecision dryRun results = MarkAction.marked ↔
      results ≠ [] ∧ results.all id = true := by
  rcases results with _ | ⟨b, bs⟩
  · cases dryRun <;> simp [markDecision]
  · by_cases h : (b :: bs).all id = true
    · simp [markDecision, h]
    · cases dryRun <;> simp [markDecision, h]

/-- Outside dry-run, a non-empty outcome list with a false outcome takes the
partial-failure branch. -/
theorem markDecision_warned_of (results : List Bool) (hne : results ≠ [])
    (hfalse : results.all id = false) :
    markDecision false results = MarkAction.warned := by
  rcases results with _ | ⟨b, bs⟩
  · exact absurd rfl hne
  · simp [markDecision, hfalse]

/-- In dry-run every collected outcome is the simulated `True`. -/
theorem computeResults_dry_all (targets : List String) (bc mc bo mo : Bool) :
    (computeResults targets true bc mc bo mo).all id = true := by
  cases h1 : targets.contains "bluesky" <;> cases h2 : targets.contains "mastodon" <;>
    simp [computeResults, h1, h2]

/-- C3: for every manifest entry, the entry is marked iff its per-target
outcome list is non-empty and every outcome is true; a non-empty outcome
list containing a false outcome yields the partial-failure warning and no
marking; an empty outcome list yields neither. -/
theorem markDecision_spec (targets : List String) (dryRun : Bool)
    (bskyClient mastoClient bskyOk mastoOk : Bool) :
    (markDecision dryRun (computeResults targets dryRun bskyClient mastoClient bskyOk mastoOk) =
        MarkAction.marked ↔
      computeResults targets dryRun bskyClient mastoClient bskyOk mastoOk ≠ [] ∧
        (computeResults targets dryRun bskyClient mastoClient bskyOk mastoOk).all id = true) ∧
    ((computeResults targets dryRun bskyClient mastoClient bskyOk mastoOk ≠ [] ∧
        (computeResults targets dryRun bskyClient mastoClient bskyOk mastoOk).all id = false) →
      markDecision dryRun (computeResults targets dryRun bskyClient mastoClient bskyOk mastoOk) =
        MarkAction.warned) ∧
    (computeResults targets dryRun bskyClient mastoClient bskyOk mastoOk = [] →
      markDecision dryRun (computeResults targets dryRun bskyClient mastoClient bskyOk mastoOk) =
        MarkAction.noAction) := by
  refine ⟨markDecision_eq_marked_iff _ _, ?_, ?_⟩
  · rintro ⟨hne, hfalse⟩
    cases dryRun with
    | false => exact markDecision_warned_of _ hne hfalse
    | true =>
        rw [computeResults_dry_all] at hfalse
        exact absurd hfalse (by simp)
  · intro h
    rw [h]
    cases dryRun <;> rfl

/-- Witness for C3 at the spec's own example: targets
`["bluesky","mastodon"]`, bluesky publish succeeds, mastodon publish fails —
the decision is the partial-failure warning, not marking. -/
theorem markDecision_spec_witness :
    markDecision false
        (computeResults ["bluesky", "mastodon"] false true true true false) =
      MarkAction.warned :=
  (markDecision_spec ["bluesky", "mastodon"] false true true true false).2.1
    ⟨by decide, by decide⟩

/-! ## WriteBackMarker: `mark_syndicated` (posse.py lines 162–189) -/

/-- Index of the first element satisfying `p` (Python `list.index` /
first-match search), `none` when no element matches. -/
def findIdxP (p : α → Bool) : List α → Option Nat
  | [] => none
  | x :: xs => if p x then some 0 else (findIdxP p xs).map (fun n => n + 1)

/-- Python `str.isspace` characters stripped by `str.strip()`. -/
def pyIsSpace (c : Char) : Bool :=
  c == ' ' || c == '\t' || c == '\n' || c == '\r' || c == '\x0b' || c == '\x0c'

/-- Python `line.strip()`: whitespace removed from both ends. -/
def pyStrip (s : String) : String :=
  ⟨((s.data.dropWhile pyIsSpace).reverse.dropWhile pyIsSpace).reverse⟩

/-- Source line `delimiter = "+++" if is_toml else "---"`, with
`is_toml = lines[0].strip() == "+++"`. -/
def delimOf (first : String) : String :=
  if pyStrip first = "+++" then "+++" else "---"

/-- Source line `syndicated_line = "syndicated = true\n" if is_toml else
"syndicated: true\n"`. -/
def syndLineOf (first : String) : String :=
  if pyStrip first = "+++" then "syndicated = true\n" else "syndicated: true\n"

/-- The body of `mark_syndicated`'s rewrite loop over the lines after the
first (for which the loop index `i` is positive, so only the
`line.strip() == delimiter and not found_closing` test matters): the marker
line is written immediately before the first stripped match, every line is
written back unchanged. -/
def markLoop (delim synd : String) : Bool → List String → List String
  | _, [] => []
  | found, l :: ls =>
      if (pyStrip l == delim) && !found then
        synd :: l :: markLoop delim synd true ls
      else
        l :: markLoop delim synd found ls

/-- The whole-file rewrite of `mark_syndicated` as a function on the file's
lines: the first line (loop index 0) is always written unchanged — the
`i > 0` guard — and the loop runs over the remaining lines. -/
def markLines : List String → List String
  | [] => []
  | first :: rest =>
      first :: markLoop (delimOf first) (syndLineOf first) false rest

/-- After the marker was inserted the loop copies every line unchanged. -/
theorem markLoop_found (delim synd : String) (ls : List String) :
    markLoop delim synd true ls = ls := by
  induction ls with
  | nil => rfl
  | cons l ls ih => simp [markLoop, ih]

/-- With no stripped match in the remaining lines the loop is the
identity. -/
theorem markLoop_of_none (delim synd : String) (ls : List String)
    (h : findIdxP (fun l => pyStrip l == delim) ls = none) :
    markLoop delim synd false ls = ls := by
  induction ls with
  | nil => rfl
  | cons l ls ih =>
      simp only [findIdxP] at h
      cases hl : (pyStrip l == delim) with
      | true => rw [if_pos hl] at h; exact absurd h (by simp)
      | false =>
          rw [if_neg (by simp [hl])] at h
          have h2 : findIdxP (fun l => pyStrip l == delim) ls = none :=
            Option.map_eq_none'.mp h
          simp [markLoop, hl, ih h2]

/-- With a first stripped match at index `k` the loop inserts the marker
line exactly there and copies everything else. -/
theorem markLoop_of_some (delim synd : String) :
    ∀ (ls : List String) (k : Nat),
      findIdxP (fun l => pyStrip l == delim) ls = some k →
      markLoop delim synd false ls = ls.take k ++ synd :: ls.drop k := by
  intro ls
  induction ls with
  | nil => intro k h; simp [findIdxP] at h
  | cons l ls ih =>
      intro k h
      simp only [findIdxP] at h
      cases hl : (pyStrip l == delim) with
      | true =>
          rw [if_pos hl] at h
          have hk : k = 0 := by
            have := Option.some.inj h
            omega
          subst hk
          simp [markLoop, hl, markLoop_found]
      | false =>
          rw [if_neg (by simp [hl])] at h
          obtain ⟨j, hj, hjk⟩ := Option.map_eq_some'.mp h
          subst hjk
          simp [markLoop, hl, ih j hj]

/-- C5: for every non-empty input file, `mark_syndicated` writes back the
original lines in order with exactly one marker line inserted immediately
before the first line at index > 0 whose stripped content equals the
closing delimiter determined by the first line; every other line is
unchanged; when no such closing-delimiter line exists, the rewritten file
is identical to the input. -/
theorem markLines_spec (first : String) (rest : List String) :
    (∀ k, findIdxP (fun l => pyStrip l == delimOf first) rest = some k →
        markLines (first :: rest) =
          first :: (rest.take k ++ syndLineOf first :: rest.drop k)) ∧
    (findIdxP (fun l => pyStrip l == delimOf first) rest = none →
        markLines (first :: rest) = first :: rest) := by
  constructor
  · intro k hk
    simp only [markLines, markLoop_of_some (delimOf first) (syndLineOf first) rest k hk]
  · intro hn
    simp only [markLines, markLoop_of_none (delimOf first) (syndLineOf first) rest hn]

/-- Witness for C5 on a concrete TOML-delimited file: the marker lands
immediately before the closing `+++`, all other lines are unchanged. -/
theorem markLines_spec_witness :
    markLines ["+++\n", "a\n", "+++\n", "b\n"] =
      ["+++\n", "a\n", "syndicated = true\n", "+++\n", "b\n"] :=
  (markLines_spec "+++\n" ["a\n", "+++\n", "b\n"]).1 1 (by decide)

/-- Outcome of one `mark_syndicated` call: the file contents afterwards,
whether an exception escaped the function, and whether the `except` arm
logged an error. -/
structure MarkOutcome where
  fileAfter : List String
  escaped : Bool
  errorLogged : Bool
deriving DecidableEq

/-- Where, if anywhere, one call to `mark_syndicated` fails.
`readFail` is a failure of the `open`/`readlines` step, before anything is
written.  `openWriteFail` is a failure of `open(filepath, "w")` itself,
before the file is truncated.  `writeFailAfter k` is a failure during the
write-back once the opening of `open(filepath, "w")` has truncated the
file: the first `k` of the output lines produced by the rewrite loop have
reached the file when the exception is raised, so the file is left holding
exactly that prefix — possibly truncated mid-document, and possibly with
the marker line already in place. -/
inductive MarkFailure where
  | readFail
  | openWriteFail
  | writeFailAfter (k : Nat)
  | noFailure
deriving DecidableEq

/-- Function `mark_syndicated` with its surrounding `try/except Exception`.
`content` is the file's current lines.  An empty file makes `lines[0]`
raise `IndexError` before the file is opened for writing, leaving it
unchanged.  A read failure or a failure of the write-`open` also leaves the
file unchanged, but `open(filepath, "w")` truncates as soon as it succeeds,
so a failure during the writes themselves (`writeFailAfter k`) leaves the
file holding the first `k` output lines of the rewrite loop.  Every
failure is caught by the blanket `except`, which logs and returns. -/
def mark_syndicated (content : List String) (fail : MarkFailure) :
    MarkOutcome :=
  match fail, content with
  | MarkFailure.readFail, _ => ⟨content, false, true⟩
  | _, [] => ⟨content, false, true⟩
  | MarkFailure.openWriteFail, first :: rest => ⟨first :: rest, false, true⟩
  | MarkFailure.writeFailAfter k, first :: rest =>
      ⟨(markLines (first :: rest)).take k, false, true⟩
  | MarkFailure.noFailure, first :: rest =>
      ⟨markLines (first :: rest), false, false⟩

/-- C6 counterexample: a write failure does NOT leave the file unchanged
and effectively unmarked.  On the file `+++ / +++ / body` a failure after
three successful writes leaves `+++ / syndicated = true / +++` — the body
is lost and the surviving header block already carries the marker, so the
document would not even be reprocessed as unmarked on the next run. -/
theorem mark_syndicated_write_failure_changes_file :
    (mark_syndicated ["+++\n", "+++\n", "body\n"]
        (MarkFailure.writeFailAfter 3)).fileAfter ≠
      ["+++\n", "+++\n", "body\n"] ∧
    "syndicated = true\n" ∈
      (mark_syndicated ["+++\n", "+++\n", "body\n"]
        (MarkFailure.writeFailAfter 3)).fileAfter := by
  decide

/-- C6 (amended): every failure during `mark_syndicated` is caught and
logged and no exception escapes into the overall run; a failure of the
read step or of opening the file for writing leaves the file unchanged
(effectively unmarked); but a failure during the write-back itself leaves
the file holding a prefix of the rewritten lines — possibly truncated and
possibly already containing the marker — so the state-unchanged,
safe-to-reprocess guarantee does not extend to write failures. -/
theorem mark_syndicated_failure_semantics (content : List String)
    (fail : MarkFailure) :
    (mark_syndicated content fail).escaped = false ∧
    (fail = MarkFailure.readFail ∨ fail = MarkFailure.openWriteFail →
      (mark_syndicated content fail).fileAfter = content ∧
      (mark_syndicated content fail).errorLogged = true) ∧
    (∀ k, fail = MarkFailure.writeFailAfter k →
      (mark_syndicated content fail).fileAfter = (markLines content).take k ∧
      (mark_syndicated content fail).errorLogged = true) := by
  refine ⟨?_, ?_, ?_⟩
  · cases fail <;> cases content <;> rfl
  · rintro (rfl | rfl) <;> cases content <;> exact ⟨rfl, rfl⟩
  · rintro k rfl
    cases content with
    | nil => exact ⟨by simp [mark_syndicated, markLines], rfl⟩
    | cons first rest => exact ⟨rfl, rfl⟩

/-- Witness for C6's amended theorem: a concrete read failure leaves the
concrete file unchanged and logged. -/
theorem mark_syndicated_failure_semantics_witness :
    (mark_syndicated ["+++\n", "+++\n"] MarkFailure.readFail).fileAfter =
      ["+++\n", "+++\n"] ∧
    (mark_syndicated ["+++\n", "+++\n"] MarkFailure.readFail).errorLogged = true :=
  (mark_syndicated_failure_semantics ["+++\n", "+++\n"]
    MarkFailure.readFail).2.1 (Or.inl rfl)

/-! ## UrlResolver: `get_post_url` (posse.py lines 48–82)

Paths are manipulated as `List Char`.  `os.path` is modelled POSIX-style:
`normpath` collapses `.`/`..`/repeated separators, `basename` is the part
after the last `/`, `splitext` strips the extension after the last
non-leading dot. -/

/-- Python `s.split(sep)` for a one-character separator: always returns at
least one (possibly empty) piece. -/
def splitChar (sep : Char) : List Char → List (List Char)
  | [] => [[]]
  | c :: cs =>
      match splitChar sep cs with
      | [] => [[]]
      | h :: t => if c = sep then [] :: h :: t else (c :: h) :: t

/-- Python `sep.join(pieces)` for a one-character separator. -/
def joinChar (sep : Char) : List (List Char) → List Char
  | [] => []
  | [x] => x
  | x :: y :: t => x ++ sep :: joinChar sep (y :: t)

/-- The leading-slash count kept by `posixpath.normpath`: 2 for exactly two
leading slashes, otherwise 1 for an absolute path, 0 for a relative one. -/
def initialSlashes : List Char → Nat
  | '/' :: '/' :: '/' :: _ => 1
  | '/' :: '/' :: _ => 2
  | '/' :: _ => 1
  | _ => 0

/-- One step of `posixpath.normpath`'s component scan: skip empty and `.`
components, pop on `..` (except at the root of a relative path or after an
unresolved `..`), append everything else. -/
def normStep (slashes : Nat) (acc : List (List Char)) (comp : List Char) :
    List (List Char) :=
  if comp = [] ∨ comp = ['.'] then acc
  else if comp ≠ ['.', '.'] ∨ (slashes = 0 ∧ acc = []) ∨
      (acc ≠ [] ∧ acc.getLast? = some ['.', '.']) then acc ++ [comp]
  else if acc ≠ [] then acc.dropLast
  else acc

/-- Python `posixpath.normpath` on a character list. -/
def pyNormpathChars (p : List Char) : List Char :=
  if p = [] then ['.']
  else
    let slashes := initialSlashes p
    let comps := (splitChar '/' p).foldl (normStep slashes) []
    let joined := List.replicate slashes '/' ++ joinChar '/' comps
    if joined = [] then ['.'] else joined

/-- Expression `os.path.normpath(filepath).replace("\\", "/").split("/")` from
`get_post_url`. -/
def path_parts (filepath : String) : List (List Char) :=
  splitChar '/'
    ((pyNormpathChars filepath.data).map (fun c => if c = '\\' then '/' else c))

/-- Python `os.path.basename(filepath)`: the part of the original path after its
last `/`. -/
def pyBasename (filepath : String) : List Char :=
  ((splitChar '/' filepath.data).getLast?).getD []

/-- Python `os.path.splitext(name)[0]`: everything before the last dot, unless all
characters before that dot are themselves dots (leading-dot files keep
their name). -/
def stemOf (name : List Char) : List Char :=
  match findIdxP (fun c => c == '.') name.reverse with
  | none => name
  | some j =>
      let i := name.length - 1 - j
      if (name.take i).all (fun c => c == '.') then name else name.take i

/-- Python truthiness of `frontmatter.get("slug")`: a present, non-empty
slug. -/
def slugTruthy (fm : Frontmatter) : Option String :=
  match fm.slug with
  | some s => if s = "" then none else some s
  | none => none

/-- The list `dirs` as computed by `get_post_url`: the normalized path segments
strictly between the first segment equal to `"content"` and the final
segment (`path_parts.index("content")`, slice `[idx+1:-1]`), or the
`["posts"]` fallback when no `content` segment exists (`except
ValueError`). -/
def dirsOf (filepath : String) : List (List Char) :=
  match findIdxP (fun seg => seg == "content".data) (path_parts filepath) with
  | some i => ((path_parts filepath).drop (i + 1)).dropLast
  | none => ["posts".data]

/-- The URL path segments built by `get_post_url`, and the `IndexError`
raised by `dirs[-1] = frontmatter.get("slug")` when a leaf bundle has a
truthy slug but `dirs` is empty:

```python
if filename == "index.md" or filename == "_index.md":
    if frontmatter.get("slug"):
        dirs[-1] = frontmatter.get("slug")
    url_path = "/".join(dirs)
else:
    slug = frontmatter.get("slug")
    if not slug:
        slug = os.path.splitext(filename)[0]
    url_path = "/".join(dirs + [slug])
``` -/
def url_segments (filepath : String) (fm : Frontmatter) :
    Except PyErr (List (List Char)) :=
  if pyBasename filepath = "index.md".data ∨ pyBasename filepath = "_index.md".data then
    match slugTruthy fm with
    | some s =>
        if dirsOf filepath = [] then Except.error PyErr.indexError
        else Except.ok ((dirsOf filepath).set ((dirsOf filepath).length - 1) s.data)
    | none => Except.ok (dirsOf filepath)
  else
    Except.ok (dirsOf filepath ++
      [match slugTruthy fm with
        | some s => s.data
        | none => stemOf (pyBasename filepath)])

/-- Python `root.rstrip("/")`. -/
def rstripSlash (s : List Char) : List Char :=
  (s.reverse.dropWhile (fun c => c == '/')).reverse

/-- Function `get_post_url`: `f"{root}/{url_path}/"` over the computed segments,
with `root` the truthy `BASE_URL` or the `https://example.com` default,
trailing slashes stripped. -/
def get_post_url (base_url : Option String) (filepath : String)
    (fm : Frontmatter) : Except PyErr String :=
  let root : String :=
    match base_url with
    | some s => if s = "" then "https://example.com" else s
    | none => "https://example.com"
  (url_segments filepath fm).map
    (fun segs => ⟨rstripSlash root.data ++ '/' :: (joinChar '/' segs ++ ['/'])⟩)

/-- The last URL path segment, `none` when `get_post_url` raises. -/
def urlLastSeg (filepath : String) (fm : Frontmatter) : Option (List Char) :=
  match url_segments filepath fm with
  | Except.ok segs => segs.getLast?
  | Except.error _ => none

/-- The URL path segments, `[]` when `get_post_url` raises. -/
def segsOf (filepath : String) (fm : Frontmatter) : List (List Char) :=
  match url_segments filepath fm with
  | Except.ok segs => segs
  | Except.error _ => []

/-- Writing into the last position of a non-empty list replaces its last
element. -/
theorem set_last_eq {α : Type} :
    ∀ (l : List α) (x : α), l ≠ [] → l.set (l.length - 1) x = l.dropLast ++ [x]
  | [], _, h => absurd rfl h
  | [_], _, _ => rfl
  | a :: b :: l2, x, _ => by
      have htail := set_last_eq (b :: l2) x (by simp)
      have hlen : (a :: b :: l2).length - 1 = l2.length + 1 := by simp
      have hlen2 : (b :: l2).length - 1 = l2.length := by simp
      rw [hlen]
      show a :: (b :: l2).set l2.length x = (a :: b :: l2).dropLast ++ [x]
      rw [hlen2] at htail
      rw [htail]
      simp

/-- Hence the last element of such an update is the written element. -/
theorem getLast?_set_last {α : Type} (l : List α) (x : α) (h : l ≠ []) :
    (l.set (l.length - 1) x).getLast? = some x := by
  rw [set_last_eq l x h, List.getLast?_concat]

/-- A first match of `x == a` at index `i` in a list containing exactly one
copy of `a` leaves no copy of `a` after position `i`. -/
theorem count_drop_of_findIdxP {α : Type} [BEq α] [LawfulBEq α] (a : α) :
    ∀ (l : List α) (i : Nat),
      findIdxP (fun x => x == a) l = some i → l.count a = 1 →
      (l.drop (i + 1)).count a = 0 := by
  intro l
  induction l with
  | nil => intro i h _; simp [findIdxP] at h
  | cons x xs ih =>
      intro i h hc
      simp only [findIdxP] at h
      cases hx : (x == a) with
      | true =>
          rw [if_pos hx] at h
          have hi : i = 0 := (Option.some.inj h).symm
          subst hi
          rw [List.drop_succ_cons, List.drop_zero]
          rw [List.count_cons, if_pos hx] at hc
          omega
      | false =>
          rw [if_neg (by simp [hx])] at h
          obtain ⟨j, hj, hji⟩ := Option.map_eq_some'.mp h
          subst hji
          rw [List.count_cons, if_neg (by simp [hx])] at hc
          rw [List.drop_succ_cons]
          exact ih j hj (by omega)

/-- When the `content` segment occurs exactly once among the normalized
path segments, the derived directory list contains no `content` segment. -/
theorem content_not_mem_dirsOf (filepath : String)
    (h1 : (path_parts filepath).count "content".data = 1) :
    "content".data ∉ dirsOf filepath := by
  intro hmem
  unfold dirsOf at hmem
  cases hidx : findIdxP (fun seg => seg == "content".data) (path_parts filepath) with
  | none =>
      rw [hidx] at hmem
      exact (by decide : "content".data ∉ ["posts".data]) hmem
  | some i =>
      rw [hidx] at hmem
      have hsub : "content".data ∈ (path_parts filepath).drop (i + 1) :=
        (List.dropLast_sublist _).subset hmem
      have h0 : ((path_parts filepath).drop (i + 1)).count "content".data = 0 :=
        count_drop_of_findIdxP _ _ i hidx h1
      rw [List.count_eq_zero] at h0
      exact h0 hsub

/-- Two `String`s with equal character data are equal. -/
theorem string_data_inj {s t : String} (h : s.data = t.data) : s = t := by
  cases s; cases t; exact congrArg String.mk h

/-- C8 counterexample: the claim quantifies over every leaf-bundle path,
but (i) for `content/index.md` with slug `"custom"` the directory list is
empty and `dirs[-1] = slug` raises `IndexError`, so no URL with last
segment `"custom"` is produced, and (ii) for `a/b/index.md` (no `content`
segment) the `["posts"]` fallback makes the last segment `"posts"`, not the
original last directory `"b"`. -/
theorem url_leaf_counterexample :
    urlLastSeg "content/index.md" ⟨none, some "custom", none, none, false⟩ ≠
      some "custom".data ∧
    urlLastSeg "a/b/index.md" ⟨none, none, none, none, false⟩ ≠ some "b".data := by
  decide

/-- C8 (amended): for every file path whose base name is `index.md` or
`_index.md`, which has a `content` segment and a non-empty directory list
strictly between `content` and the file name, the produced URL's last path
segment is the header's non-empty slug override when present and the
original last directory segment otherwise. -/
theorem url_leaf_last_segment (filepath : String) (fm : Frontmatter)
    (hleaf : pyBasename filepath = "index.md".data ∨
      pyBasename filepath = "_index.md".data)
    (hcontent : "content".data ∈ path_parts filepath)
    (hdirs : dirsOf filepath ≠ []) :
    urlLastSeg filepath fm =
      some (match slugTruthy fm with
        | some s => s.data
        | none => (dirsOf filepath).getLast hdirs) := by
  unfold urlLastSeg url_segments
  rw [if_pos hleaf]
  cases hs : slugTruthy fm with
  | none => simp [List.getLast?_eq_getLast _ hdirs]
  | some s => simp [hdirs, getLast?_set_last _ _ hdirs]

/-- Witness for C8's amended theorem at the spec's own example:
`content/blog/index.md` with slug `"custom"` has URL last segment
`custom`. -/
theorem url_leaf_last_segment_witness :
    urlLastSeg "content/blog/index.md" ⟨none, some "custom", none, none, false⟩ =
      some "custom".data := by
  have h := url_leaf_last_segment "content/blog/index.md"
    ⟨none, some "custom", none, none, false⟩
    (Or.inl (by decide)) (by decide) (by decide)
  simpa using h

/-- C9 counterexample: the URL can contain a literal `content` segment in
three ways — a path with a repeated `content` segment (only the first is
cut), a slug override equal to `"content"`, and a file whose stem is
`content`. -/
theorem url_content_counterexample :
    "content".data ∈ segsOf "content/content/blog/post.md"
        ⟨none, none, none, none, false⟩ ∧
    "content".data ∈ segsOf "content/blog/post.md"
        ⟨none, some "content", none, none, false⟩ ∧
    "content".data ∈ segsOf "content/blog/content.md"
        ⟨none, none, none, none, false⟩ := by
  decide

/-- C9 (amended): for every file path whose normalized segments contain the
literal segment `content` exactly once, every header whose non-empty slug
override is not `"content"`, and a file-name stem other than `content`, no
URL path segment produced by `get_post_url` is the literal `content`. -/
theorem url_no_content_segment (filepath : String) (fm : Frontmatter)
    (h1 : (path_parts filepath).count "content".data = 1)
    (h2 : slugTruthy fm ≠ some "content")
    (h3 : stemOf (pyBasename filepath) ≠ "content".data)
    (segs : List (List Char))
    (hok : url_segments filepath fm = Except.ok segs) :
    "content".data ∉ segs := by
  have hdir : "content".data ∉ dirsOf filepath := content_not_mem_dirsOf filepath h1
  unfold url_segments at hok
  by_cases hleaf : pyBasename filepath = "index.md".data ∨
      pyBasename filepath = "_index.md".data
  · rw [if_pos hleaf] at hok
    cases hs : slugTruthy fm with
    | none =>
        rw [hs] at hok
        have hsegs : dirsOf filepath = segs := Except.ok.inj hok
        rw [← hsegs]
        exact hdir
    | some s =>
        rw [hs] at hok
        by_cases hd : dirsOf filepath = []
        · simp [hd] at hok
        · simp only [hd, if_false, Except.ok.injEq, ite_false] at hok
          rw [← hok]
          intro hmem
          rcases List.mem_or_eq_of_mem_set hmem with hin | heq
          · exact hdir hin
          · exact h2 (by rw [hs, string_data_inj heq.symm])
  · rw [if_neg hleaf] at hok
    have hsegs := Except.ok.inj hok
    rw [← hsegs]
    intro hmem
    rcases List.mem_append.mp hmem with hin | hlast
    · exact hdir hin
    · rw [List.mem_singleton] at hlast
      cases hs : slugTruthy fm with
      | none => rw [hs] at hlast; exact h3 hlast.symm
      | some s => rw [hs] at hlast; exact h2 (by rw [hs, string_data_inj hlast])

/-- Witness for C9's amended theorem at the spec's own example:
`content/blog/2025/11/post.md` with an empty header yields the segments
`blog/2025/11/post`, none of which is `content`. -/
theorem url_no_content_segment_witness :
    "content".data ∉ ["blog".data, "2025".data, "11".data, "post".data] :=
  url_no_content_segment "content/blog/2025/11/post.md"
    ⟨none, none, none, none, false⟩ (by decide) (by decide) (by decide)
    ["blog".data, "2025".data, "11".data, "post".data] rfl

end Posse
